import Mathlib

/-!
# Verification of the placeholder-images service (Nexlified/placeholder-images)

A shallow embedding, in Lean 4, of the rendering, caching and rate-limiting
code of the service, together with proofs about the embedded definitions.

Modelling conventions:
* Go strings are embedded as `List Char` (`Str`); Go byte-length coincides with
  character count for the ASCII data handled here.
* Go `float64` arithmetic is embedded as exact rational arithmetic (`ℚ`);
  numeric literals such as `0.15` are exact decimal rationals.
* External raster encoders (png/jpeg/gif/webp libraries) are opaque to this
  repository; a raster render is embedded as the exact scene handed to the
  encoder (`RasterScene`), tagged with the encoder the code selects
  (`Encoded`).  Two equal scenes passed to the same encoder produce equal
  bytes, so byte-level equalities/inequalities are decided at scene level.
* Text measurement (`gg.Context.MeasureString`) depends on the loaded font
  face; it is embedded as an explicit `measure` function parameter
  (indexed by the bold flag and font size, which the code sets on the face).
-/

namespace Grout

/-- Characters of a Go string. -/
abbrev Str := List Char

/-! ## Configuration constants (src/internal/config/config.go) -/

/-- Go `config.DefaultSize`. -/
def DefaultSize : Nat := 128

/-- Go `config.DefaultBgColor`. -/
def DefaultBgColor : Str := "cccccc".toList

/-- Go `config.CacheSize`. -/
def CacheSize : Nat := 2000

/-- Go `config.MinWidthForQuoteJoke`. -/
def MinWidthForQuoteJoke : Nat := 300

/-- Go `config.MinFontSize` (compared against float font sizes, hence `ℚ`). -/
def MinFontSize : ℚ := 16

/-- Go `config.MaxFontSize`. -/
def MaxFontSize : ℚ := 48

/-- Go `config.MinTextLengthForSmallFont`. -/
def MinTextLengthForSmallFont : Nat := 2

/-- Go `config.MinTextLengthForWrapping` (alias kept by the source). -/
def MinTextLengthForWrapping : Nat := MinTextLengthForSmallFont

/-- Go `config.MinCharsPerLine` (compared against the Go `int` character bound). -/
def MinCharsPerLine : Int := 10

/-! ## Basic Go string helpers -/

/-- Go `unicode.IsSpace` restricted to the ASCII whitespace characters
(space, tab, newline, vertical tab, form feed, carriage return); the
Latin-1/Unicode space code points are irrelevant to the data handled here. -/
def goIsSpace (c : Char) : Bool :=
  c == ' ' || c == '\t' || c == '\n' || c == Char.ofNat 11 || c == Char.ofNat 12 || c == '\r'

/-- Go `strings.Fields`: maximal runs of non-whitespace characters. -/
def fields : Str → List Str
  | [] => []
  | c :: s =>
    if goIsSpace c then fields s
    else (c :: s.takeWhile (fun x => !goIsSpace x)) :: fields (s.dropWhile (fun x => !goIsSpace x))
termination_by s => s.length
decreasing_by
  · simp only [List.length_cons]; omega
  · have := (List.dropWhile_sublist (l := s) (fun x => !goIsSpace x)).length_le
    simp only [List.length_cons]; omega

/-- Go `strings.TrimSpace`: strip leading and trailing whitespace. -/
def trimSpace (s : Str) : Str :=
  ((s.dropWhile goIsSpace).reverse.dropWhile goIsSpace).reverse

/-- Go `strings.Split(s, ",")`: split on every comma, keeping empty parts. -/
def splitOnComma : Str → List Str
  | [] => [[]]
  | c :: s =>
    if c = ',' then [] :: splitOnComma s
    else
      match splitOnComma s with
      | [] => [[c]]
      | w :: ws => (c :: w) :: ws

/-! ## Color resolver (src/internal/render/raster.go) -/

/-- Go `parseGradientColors`: a comma in the input signals a gradient; exactly two
comma-separated parts give two (trimmed) stops, more than two give the first
part as a solid color, otherwise no gradient (empty results). -/
def parseGradientColors (bgHex : Str) : Str × Str :=
  if !bgHex.contains ',' then ([], [])
  else
    match splitOnComma bgHex with
    | [c1, c2] => (trimSpace c1, trimSpace c2)
    | c1 :: _ :: _ :: _ => (trimSpace c1, [])
    | _ => ([], [])

/-- An RGB color; the source always uses alpha 255, which is omitted. -/
structure RGBA where
  r : Nat
  g : Nat
  b : Nat
deriving DecidableEq, Repr

/-- Value of one hex digit, as accepted by `strconv.ParseUint(_, 16, 8)`. -/
def hexDigitVal (c : Char) : Option Nat :=
  if '0' ≤ c ∧ c ≤ '9' then some (c.toNat - '0'.toNat)
  else if 'a' ≤ c ∧ c ≤ 'f' then some (c.toNat - 'a'.toNat + 10)
  else if 'A' ≤ c ∧ c ≤ 'F' then some (c.toNat - 'A'.toNat + 10)
  else none

/-- One two-hex-digit byte. -/
def hexByte (hi lo : Char) : Option Nat :=
  match hexDigitVal hi, hexDigitVal lo with
  | some h, some l => some (16 * h + l)
  | _, _ => none

/-- Go `hexDecode`: three bytes from a six-character hex string (the source only
calls it on length-6 input; any other shape is a decode failure). -/
def hexDecode (s : Str) : Option (Nat × Nat × Nat) :=
  match s with
  | [r1, r2, g1, g2, b1, b2] =>
    match hexByte r1 r2, hexByte g1 g2, hexByte b1 b2 with
    | some r, some g, some b => some (r, g, b)
    | _, _, _ => none
  | _ => none

/-- The fixed fallback gray `color.RGBA{200, 200, 200, 255}`. -/
def fallbackGray : RGBA := ⟨200, 200, 200⟩

/-- Go `strings.TrimPrefix(s, "#")`: strip one leading `#` if present. -/
def trimLeadingHash : Str → Str
  | '#' :: rest => rest
  | s => s

/-- The 3-digit digit-wise expansion step of `ParseHexColor` (`if len(s) == 3`
rebuild with doubled digits); other lengths pass through unchanged. -/
def expand3 : Str → Str
  | [a, b, c] => [a, a, b, b, c, c]
  | s => s

/-- Go `ParseHexColor`: `#rgb`/`#rrggbb` (hash optional); 3-digit input is
expanded digit-wise; anything else, or a hex-decode failure, yields the
fallback gray. -/
def ParseHexColor (s : Str) : RGBA :=
  if (expand3 (trimLeadingHash s)).length ≠ 6 then fallbackGray
  else
    match hexDecode (expand3 (trimLeadingHash s)) with
    | some (r, g, b) => ⟨r, g, b⟩
    | none => fallbackGray

/-- Go `GetContrastColor`: black text over light backgrounds, white over dark,
by relative luminance of the (gradient-averaged) background color. -/
def GetContrastColor (bgHex : Str) : Str :=
  let p := parseGradientColors bgHex
  if p.1 ≠ [] ∧ p.2 ≠ [] then
    let c1 := ParseHexColor p.1
    let c2 := ParseHexColor p.2
    let r : ℚ := ((c1.r : ℚ) + (c2.r : ℚ)) / 2 / 255
    let g : ℚ := ((c1.g : ℚ) + (c2.g : ℚ)) / 2 / 255
    let b : ℚ := ((c1.b : ℚ) + (c2.b : ℚ)) / 2 / 255
    let luminance := 0.2126 * r + 0.7152 * g + 0.0722 * b
    if luminance > 0.5 then "000000".toList else "ffffff".toList
  else
    let bgHex2 := if p.1 ≠ [] then p.1 else bgHex
    let c := ParseHexColor bgHex2
    let r : ℚ := (c.r : ℚ) / 255
    let g : ℚ := (c.g : ℚ) / 255
    let b : ℚ := (c.b : ℚ) / 255
    let luminance := 0.2126 * r + 0.7152 * g + 0.0722 * b
    if luminance > 0.5 then "000000".toList else "ffffff".toList

/-- Definition following the words of the C4 claim (not the source): the
relative luminance `0.2126·R + 0.7152·G + 0.0722·B` of the 0–1 normalized
parsed background color, computed from the channel-wise average of the two
stops for a two-stop gradient input. -/
def specLuminance (bgHex : Str) : ℚ :=
  let p := parseGradientColors bgHex
  if p.1 ≠ [] ∧ p.2 ≠ [] then
    let c1 := ParseHexColor p.1
    let c2 := ParseHexColor p.2
    0.2126 * (((c1.r : ℚ) + (c2.r : ℚ)) / 2 / 255) +
      0.7152 * (((c1.g : ℚ) + (c2.g : ℚ)) / 2 / 255) +
      0.0722 * (((c1.b : ℚ) + (c2.b : ℚ)) / 2 / 255)
  else
    let c := ParseHexColor (if p.1 ≠ [] then p.1 else bgHex)
    0.2126 * ((c.r : ℚ) / 255) + 0.7152 * ((c.g : ℚ) / 255) + 0.0722 * ((c.b : ℚ) / 255)

/-! ## Text layout engine (src/internal/render/text.go) -/

/-- The greedy word-wrap loop shared, line for line, by `wrapText` and
`wrapTextForSVG` (the two Go functions duplicate this loop; only the fit
test differs, so it is a parameter here).  Arguments: remaining words,
`currentLine`, committed `lines`; result: committed lines and the final
`currentLine`. -/
def wrapLoop (fits : Str → Bool) : List Str → Str → List Str → List Str × Str
  | [], currentLine, lines => (lines, currentLine)
  | word :: ws, currentLine, lines =>
    let testLine := if currentLine ≠ [] then currentLine ++ ' ' :: word else word
    if fits testLine then wrapLoop fits ws testLine lines
    else if currentLine ≠ [] then wrapLoop fits ws word (lines ++ [currentLine])
    else wrapLoop fits ws [] (lines ++ [word])

/-- The epilogue both wrap functions repeat verbatim: append the trailing
`currentLine` if non-empty, and return `[text]` if no line was produced. -/
def wrapFinish (text : Str) (acc : List Str × Str) : List Str :=
  let lines := if acc.2 ≠ [] then acc.1 ++ [acc.2] else acc.1
  if lines = [] then [text] else lines

/-- Go `wrapText`: exact-measurement greedy wrap; `measure` stands for
`dc.MeasureString` under the font face the caller selected. -/
def wrapText (measure : Str → ℚ) (text : Str) (imageWidth fontSize : ℚ) : List Str :=
  let padding := imageWidth * 0.1
  let maxWidth := imageWidth - 2 * padding
  let words := fields text
  if words = [] then [text]
  else wrapFinish text (wrapLoop (fun testLine => measure testLine ≤ maxWidth) words [] [])

/-- Go's conversion of a non-negative-or-negative float to `int`: truncation
toward zero (total here, as `ℚ` division is total). -/
def goTruncInt (q : ℚ) : Int :=
  if q < 0 then -Int.floor (-q) else Int.floor q

/-- Go `wrapTextForSVG`: heuristic greedy wrap estimating character width as
`0.6 × fontSize`, with the per-line character bound clamped from below by
`config.MinCharsPerLine`. -/
def wrapTextForSVG (text : Str) (imageWidth fontSize : ℚ) : List Str :=
  let charWidth := fontSize * 0.6
  let padding := imageWidth * 0.1
  let maxWidth := imageWidth - 2 * padding
  let maxChars0 := goTruncInt (maxWidth / charWidth)
  let maxCharsPerLine := if maxChars0 < MinCharsPerLine then MinCharsPerLine else maxChars0
  let words := fields text
  if words = [] then [text]
  else
    wrapFinish text
      (wrapLoop (fun testLine => (testLine.length : Int) ≤ maxCharsPerLine) words [] [])

/-- Concatenation of wrapped lines with a single whitespace separator, used
to state word-sequence preservation (splitting the joined lines on
whitespace recovers the word sequence). -/
def joinSpace : List Str → Str
  | [] => []
  | [l] => l
  | l :: ls => l ++ ' ' :: joinSpace ls

/-- The y-coordinate at which `drawMultiLineText` anchors the `i`-th of
`lines` when drawing on a `height`-tall canvas at `fontSize`. -/
def drawMultiLineTextY (lines : List Str) (height fontSize : ℚ) (i : Nat) : ℚ :=
  let lineHeight := fontSize * 1.5
  let totalHeight := fontSize + ((lines.length : ℚ) - 1) * lineHeight
  let startY := (height - totalHeight) / 2 + fontSize / 2
  startY + (i : ℚ) * lineHeight

/-- The y-coordinate of the `i`-th text element emitted by
`generateSVGWithWrapping` for an `n`-line block. -/
def svgLineY (n : Nat) (h fontSize : ℚ) (i : Nat) : ℚ :=
  let lineHeight := fontSize * 1.5
  let totalHeight := (n : ℚ) * lineHeight
  let centerY := h / 2
  let startY := centerY - (totalHeight - lineHeight) / 2
  startY + (i : ℚ) * lineHeight

/-! ## Formatting helpers for the SVG writer -/

/-- Go `fmt` `%d` of a non-negative Go int. -/
def natToChars (n : Nat) : Str := Nat.toDigits 10 n

/-- Go `fmt` `%d` of a Go int. -/
def intToChars (i : Int) : Str :=
  if i < 0 then '-' :: natToChars i.natAbs else natToChars i.natAbs

/-- Go `fmt` `%.0f`: round to the nearest integer, ties to even. -/
def roundHalfEven (q : ℚ) : Int :=
  let fl := Int.floor q
  let fr := q - (fl : ℚ)
  if fr < 1 / 2 then fl
  else if 1 / 2 < fr then fl + 1
  else if fl % 2 = 0 then fl else fl + 1

/-- Go `fmt` `%.0f` as characters. -/
def fmtQ0 (q : ℚ) : Str := intToChars (roundHalfEven q)

/-- Go `strings.ReplaceAll` for a single-character pattern. -/
def replaceAllChar (s : Str) (old : Char) (rep : Str) : Str :=
  s.flatMap fun c => if c = old then rep else [c]

/-- Go `escapeXML`: escape `& < > " '` (ampersand first, exactly as the source). -/
def escapeXML (s : Str) : Str :=
  let s1 := replaceAllChar s '&' ("&amp;".toList)
  let s2 := replaceAllChar s1 '<' ("&lt;".toList)
  let s3 := replaceAllChar s2 '>' ("&gt;".toList)
  let s4 := replaceAllChar s3 '"' ("&quot;".toList)
  replaceAllChar s4 '\'' ("&apos;".toList)

/-! ## Vector renderer (src/internal/render/svg.go) -/

/-- Go `generateSVGWithWrapping`: the full SVG markup, byte for byte. -/
def generateSVGWithWrapping (w h : Nat) (bgHex fgHex text : Str) (rounded bold : Bool)
    (fontSize : ℚ) (isQuoteOrJoke : Bool) : Str :=
  let header :=
    "<svg xmlns=\"http://www.w3.org/2000/svg\" width=\"".toList ++ natToChars w ++
      "\" height=\"".toList ++ natToChars h ++ "\" viewBox=\"0 0 ".toList ++ natToChars w ++
      " ".toList ++ natToChars h ++ "\">".toList ++ "\n".toList
  let p := parseGradientColors bgHex
  let color1 := p.1
  let color2 := p.2
  let radius := (if h < w then h else w) / 2
  let background :=
    if color1 ≠ [] ∧ color2 ≠ [] then
      let gradientID := "grad_".toList ++ color1 ++ "_".toList ++ color2
      let defsPart :=
        "<defs><linearGradient id=\"".toList ++ gradientID ++
          "\" x1=\"0%\" y1=\"0%\" x2=\"100%\" y2=\"0%\">".toList ++
          "<stop offset=\"0%\" style=\"stop-color:#".toList ++ color1 ++
          ";stop-opacity:1\" />".toList ++
          "<stop offset=\"100%\" style=\"stop-color:#".toList ++ color2 ++
          ";stop-opacity:1\" />".toList ++
          "</linearGradient></defs>".toList ++ "\n".toList
      let shape :=
        if rounded then
          "<circle cx=\"".toList ++ natToChars (w / 2) ++ "\" cy=\"".toList ++
            natToChars (h / 2) ++ "\" r=\"".toList ++ natToChars radius ++
            "\" fill=\"url(#".toList ++ gradientID ++ ")\" />".toList
        else
          "<rect width=\"".toList ++ natToChars w ++ "\" height=\"".toList ++ natToChars h ++
            "\" fill=\"url(#".toList ++ gradientID ++ ")\" />".toList
      defsPart ++ shape
    else
      let bg2 := if color1 ≠ [] then color1 else bgHex
      if rounded then
        "<circle cx=\"".toList ++ natToChars (w / 2) ++ "\" cy=\"".toList ++
          natToChars (h / 2) ++ "\" r=\"".toList ++ natToChars radius ++
          "\" fill=\"#".toList ++ bg2 ++ "\" />".toList
      else
        "<rect width=\"".toList ++ natToChars w ++ "\" height=\"".toList ++ natToChars h ++
          "\" fill=\"#".toList ++ bg2 ++ "\" />".toList
  let fontWeight := if bold then "bold".toList else "normal".toList
  let textPart :=
    if isQuoteOrJoke then
      let lines := wrapTextForSVG text (w : ℚ) fontSize
      (lines.enum.map fun il =>
        "<text x=\"".toList ++ natToChars (w / 2) ++ "\" y=\"".toList ++
          fmtQ0 (svgLineY lines.length (h : ℚ) fontSize il.1) ++
          "\" font-family=\"sans-serif\" font-size=\"".toList ++ fmtQ0 fontSize ++
          "\" font-weight=\"".toList ++ fontWeight ++ "\" fill=\"#".toList ++ fgHex ++
          "\" text-anchor=\"middle\" dominant-baseline=\"middle\">".toList ++
          escapeXML il.2 ++ "</text>".toList ++ "\n".toList).flatten
    else
      "<text x=\"".toList ++ natToChars (w / 2) ++ "\" y=\"".toList ++ natToChars (h / 2) ++
        "\" font-family=\"sans-serif\" font-size=\"".toList ++ fmtQ0 fontSize ++
        "\" font-weight=\"".toList ++ fontWeight ++ "\" fill=\"#".toList ++ fgHex ++
        "\" text-anchor=\"middle\" dominant-baseline=\"middle\">".toList ++ escapeXML text ++
        "</text>".toList ++ "\n".toList
  header ++ background ++ "\n".toList ++ textPart ++ "</svg>".toList

/-! ## Raster renderer and encoder (src/internal/render/raster.go) -/

/-- The fill style selected for the background. -/
inductive FillStyle
  | gradient (c1 c2 : RGBA)
  | solid (c : RGBA)
deriving DecidableEq

/-- The text drawing commands issued: one anchored line, or a wrapped block
with explicit anchor y-coordinates. -/
inductive TextLayout
  | single (text : Str)
  | multi (lines : List Str) (ys : List ℚ)
deriving DecidableEq

/-- Everything `drawRasterImageWithWrapping` draws onto the `gg` context
before encoding; equal scenes yield byte-identical encoder input. -/
structure RasterScene where
  width : Nat
  height : Nat
  fill : FillStyle
  rounded : Bool
  fg : RGBA
  bold : Bool
  fontSize : ℚ
  layout : TextLayout
deriving DecidableEq

/-- A successfully encoded raster image: the scene tagged with the encoder
and encoder options the code selected (the encoders themselves are external
libraries). -/
inductive Encoded
  | png (scene : RasterScene)
  | jpeg (scene : RasterScene) (quality : Nat)
  | gif (scene : RasterScene)
  | webp (scene : RasterScene) (lossless : Bool) (quality : Nat)
deriving DecidableEq

/-- Go `encodeImage`: dispatch on the format string; unrecognized formats are an
error (`fmt.Errorf("unsupported raster format: %s", format)`). -/
def encodeImage (img : RasterScene) (format : Str) : Except Str Encoded :=
  if format = "png".toList then .ok (.png img)
  else if format = "jpg".toList ∨ format = "jpeg".toList then .ok (.jpeg img 90)
  else if format = "gif".toList then .ok (.gif img)
  else if format = "webp".toList then .ok (.webp img false 90)
  else .error ("unsupported raster format: ".toList ++ format)

/-- Go `drawRasterImageWithWrapping`: build the scene (gradient/solid fill,
shape, font, single or wrapped text) and encode it. -/
def drawRasterImageWithWrapping (measure : Bool → ℚ → Str → ℚ) (w h : Nat)
    (bgHex fgHex text : Str) (rounded bold : Bool) (fontSize : ℚ)
    (isQuoteOrJoke : Bool) (format : Str) : Except Str Encoded :=
  let p := parseGradientColors bgHex
  let fill :=
    if p.1 ≠ [] ∧ p.2 ≠ [] then FillStyle.gradient (ParseHexColor p.1) (ParseHexColor p.2)
    else if p.1 ≠ [] then FillStyle.solid (ParseHexColor p.1)
    else FillStyle.solid (ParseHexColor bgHex)
  let fg := ParseHexColor fgHex
  let layout :=
    if isQuoteOrJoke then
      let lines := wrapText (measure bold fontSize) text (w : ℚ) fontSize
      TextLayout.multi lines
        ((List.range lines.length).map (drawMultiLineTextY lines (h : ℚ) fontSize))
    else TextLayout.single text
  encodeImage ⟨w, h, fill, rounded, fg, bold, fontSize, layout⟩ format

/-! ## Placeholder rendering entry point (src/internal/render/render.go) -/

/-- The font-size computation of `DrawPlaceholderImage`. -/
def placeholderFontSize (w h : Nat) (text : Str) (isQuoteOrJoke : Bool) : ℚ :=
  if isQuoteOrJoke then
    let textLen := text.length
    let f0 : ℚ :=
      if textLen > 200 then (h : ℚ) * 0.05
      else if textLen > 100 then (h : ℚ) * 0.06
      else (h : ℚ) * 0.08
    let f1 := if f0 < MinFontSize then MinFontSize else f0
    if f1 > MaxFontSize then MaxFontSize else f1
  else
    let minDim : ℚ := if (h : ℚ) < (w : ℚ) then (h : ℚ) else (w : ℚ)
    if text.length > MinTextLengthForWrapping then
      let f := minDim * 0.15
      if f < 12 then 12 else f
    else minDim * 0.5

/-- Output of a placeholder render: SVG markup bytes, or an encoded raster. -/
inductive RenderOutput
  | svg (markup : Str)
  | raster (encoded : Encoded)
deriving DecidableEq

/-- Go `Renderer.DrawPlaceholderImage` (always called with `rounded=false`,
`bold=true` by the source). -/
def DrawPlaceholderImage (measure : Bool → ℚ → Str → ℚ) (w h : Nat)
    (bgHex fgHex text : Str) (isQuoteOrJoke : Bool) (format : Str) :
    Except Str RenderOutput :=
  let fontSize := placeholderFontSize w h text isQuoteOrJoke
  if format = "svg".toList then
    .ok (.svg (generateSVGWithWrapping w h bgHex fgHex text false true fontSize isQuoteOrJoke))
  else
    (drawRasterImageWithWrapping measure w h bgHex fgHex text false true fontSize
      isQuoteOrJoke format).map .raster

/-! ## Placeholder requests and the cache fingerprint
(src/internal/handlers/placeholder.go) -/

/-- The resolved parameters of a placeholder request at the point where
`handlePlaceholder` builds the cache key and calls the renderer. -/
structure PHRequest where
  width : Nat
  height : Nat
  bgHex : Str
  fgHex : Str
  text : Str
  isQuoteOrJoke : Bool
  format : Str
deriving DecidableEq

/-- The cache key `fmt.Sprintf("PH:%d:%d:%s:%s:%s:%s", width, height, bgHex,
fgHex, text, format)`. -/
def placeholderFingerprint (r : PHRequest) : Str :=
  "PH:".toList ++ natToChars r.width ++ ":".toList ++ natToChars r.height ++ ":".toList ++
    r.bgHex ++ ":".toList ++ r.fgHex ++ ":".toList ++ r.text ++ ":".toList ++ r.format

/-- The render `handlePlaceholder` performs for a resolved request. -/
def renderPlaceholder (measure : Bool → ℚ → Str → ℚ) (r : PHRequest) :
    Except Str RenderOutput :=
  DrawPlaceholderImage measure r.width r.height r.bgHex r.fgHex r.text r.isQuoteOrJoke r.format

/-! ## LRU cache and conditional serving (src/internal/handlers/handlers.go) -/

/-- Modelled from the documented semantics of the `hashicorp/golang-lru`
dependency (not code of this repository): a bounded map whose `Get` marks
the entry most recently used and whose `Add` inserts at the most-recent
position, evicting the least recently used entry on overflow.  Entries are
kept most-recent first. -/
structure LRUCache where
  entries : List (Str × Str)
  capacity : Nat
deriving DecidableEq

/-- Go `lru.Cache.Get`: returns the value and promotes the key to most recent. -/
def LRUCache.get (c : LRUCache) (k : Str) : Option Str × LRUCache :=
  match c.entries.lookup k with
  | some v => (some v, ⟨(k, v) :: c.entries.eraseP (fun e => e.1 == k), c.capacity⟩)
  | none => (none, c)

/-- Go `lru.Cache.Add`: insert/update as most recent; evict the oldest entry if
over capacity. -/
def LRUCache.add (c : LRUCache) (k v : Str) : LRUCache :=
  let es := (k, v) :: c.entries.eraseP (fun e => e.1 == k)
  ⟨if c.capacity < es.length then es.dropLast else es, c.capacity⟩

/-- Go `getContentType`. -/
def getContentType (format : Str) : Str :=
  if format = "png".toList then "image/png".toList
  else if format = "jpg".toList ∨ format = "jpeg".toList then "image/jpeg".toList
  else if format = "gif".toList then "image/gif".toList
  else if format = "webp".toList then "image/webp".toList
  else if format = "svg".toList then "image/svg+xml".toList
  else "image/svg+xml".toList

/-- The response head and body `serveImage` produces (headers it sets are
`some`, deleted/unset ones `none`). -/
structure HTTPResponse where
  status : Nat
  body : Str
  contentType : Option Str
  cacheControl : Option Str
  etagHeader : Option Str
  xCache : Option Str
deriving DecidableEq

/-- Result of one `serveImage` call: the response, the cache state afterwards,
and whether the call touched the cache store / invoked the generator. -/
structure ServeOutcome where
  response : HTTPResponse
  cache : LRUCache
  cacheAccessed : Bool
  generatorCalled : Bool
deriving DecidableEq

/-- Modelled from the spec: the embedded HTML error templates
(`web/error4xx.html` / `web/error5xx.html`) are not under src/; the body is
the template with status code and message substituted, represented here as a
marker holding exactly those substituted values. -/
def errorPageBody (status : Nat) (message : Str) : Str :=
  "ERRORPAGE ".toList ++ natToChars status ++ " ".toList ++ message

/-- Go `serveImage`.  `digest` stands for the hex MD5 digest (external crypto
primitive) used to build the quoted ETag; `generator` is the pure render
closure's result; `ifNoneMatch` is the request's `If-None-Match` header. -/
def serveImage (digest : Str → Str) (cache : LRUCache) (cacheKey : Str) (format : Str)
    (ifNoneMatch : Option Str) (generator : Except Str Str) : ServeOutcome :=
  let etag := '"' :: digest cacheKey ++ "\"".toList
  let ct := getContentType format
  let cc := "public, max-age=31536000, immutable".toList
  if ifNoneMatch = some etag then
    ⟨⟨304, [], some ct, some cc, some etag, none⟩, cache, false, false⟩
  else
    match cache.get cacheKey with
    | (some imgData, cache1) =>
      ⟨⟨200, imgData, some ct, some cc, some etag, some ("HIT".toList)⟩, cache1, true, false⟩
    | (none, cache1) =>
      match generator with
      | .error _ =>
        ⟨⟨500, errorPageBody 500 ("Failed to generate image. Please try again later or contact support if the problem persists.".toList),
          none, none, none, none⟩, cache1, true, true⟩
      | .ok imgData =>
        ⟨⟨200, imgData, some ct, some cc, some etag, some ("MISS".toList)⟩,
          cache1.add cacheKey imgData, true, true⟩

/-! ## Rate limiter (src/internal/middleware/ratelimit.go) -/

/-- Modelled from the spec and the documented contract of the
`golang.org/x/time/rate` dependency (not code of this repository): a token
bucket holding `tokens` (capped at `burst`, starting full) refilled
continuously at `limit` tokens per second. -/
structure Bucket where
  limit : ℚ
  burst : Nat
  tokens : ℚ
  lastTime : ℚ
deriving DecidableEq

/-- Refill the bucket for the time elapsed since `lastTime`. -/
def Bucket.advance (b : Bucket) (now : ℚ) : Bucket :=
  { b with tokens := min (b.burst : ℚ) (b.tokens + (now - b.lastTime) * b.limit),
           lastTime := now }

/-- Go `rate.Limiter.Allow`: consume one token if at least one is available. -/
def Bucket.allow (b : Bucket) (now : ℚ) : Bool × Bucket :=
  let b1 := b.advance now
  if 1 ≤ b1.tokens then (true, { b1 with tokens := b1.tokens - 1 })
  else (false, b1)

/-- One registry entry: the per-identity limiter and its last access time. -/
structure LimiterEntry where
  bucket : Bucket
  lastAccess : ℚ
deriving DecidableEq

/-- The `RateLimiter` registry state: per-identity entries plus the
configured requests-per-minute and burst. -/
structure RateLimiterState where
  limiters : List (Str × LimiterEntry)
  rpm : Nat
  burst : Nat
deriving DecidableEq

/-- Go `NewRateLimiter rpm burst` (the cleanup goroutine is independent of the
request path and not modelled here). -/
def newRateLimiter (rpm burst : Nat) : RateLimiterState := ⟨[], rpm, burst⟩

/-- Go `getLimiter`: look up the identity's limiter, creating it on first use
with rate `rpm/60` per second and `burst` capacity (a fresh
`rate.NewLimiter` starts with a full bucket); an existing entry has its
`lastAccess` refreshed. -/
def RateLimiterState.getLimiter (rl : RateLimiterState) (ip : Str) (now : ℚ) :
    Bucket × RateLimiterState :=
  match rl.limiters.lookup ip with
  | some entry =>
    (entry.bucket,
      { rl with limiters := rl.limiters.map fun e =>
          if e.1 == ip then (e.1, { e.2 with lastAccess := now }) else e })
  | none =>
    let bucket : Bucket :=
      { limit := (rl.rpm : ℚ) / 60, burst := rl.burst, tokens := (rl.burst : ℚ), lastTime := now }
    (bucket, { rl with limiters := (ip, ⟨bucket, now⟩) :: rl.limiters })

/-- Write the mutated bucket back (the Go code mutates it through a pointer). -/
def RateLimiterState.setBucket (rl : RateLimiterState) (ip : Str) (b : Bucket) :
    RateLimiterState :=
  { rl with limiters := rl.limiters.map fun e =>
      if e.1 == ip then (e.1, { e.2 with bucket := b }) else e }

/-- Go `Middleware`'s admission decision for one request from `ip` at time
`now`: `getLimiter` followed by `limiter.Allow()`. -/
def RateLimiterState.admitReq (rl : RateLimiterState) (ip : Str) (now : ℚ) :
    Bool × RateLimiterState :=
  let gl := rl.getLimiter ip now
  let ab := gl.1.allow now
  (ab.1, gl.2.setBucket ip ab.2)

/-! ## Theorems -/

/-- Helper: `encodeImage` on the literal png format. -/
theorem encodeImage_png (img : RasterScene) :
    encodeImage img ("png".toList) = .ok (.png img) := rfl

/-- C2: a request whose `If-None-Match` token equals the quoted ETag digest of
the cache key is answered 304 Not Modified with an empty body; the cache store
is neither read nor written (its state is unchanged) and the generator is
never invoked. -/
theorem c2_conditional_match_short_circuits (digest : Str → Str) (cache : LRUCache)
    (cacheKey format : Str) (generator : Except Str Str) :
    (serveImage digest cache cacheKey format
        (some ('"' :: digest cacheKey ++ "\"".toList)) generator).response.status = 304
  ∧ (serveImage digest cache cacheKey format
        (some ('"' :: digest cacheKey ++ "\"".toList)) generator).response.body = []
  ∧ (serveImage digest cache cacheKey format
        (some ('"' :: digest cacheKey ++ "\"".toList)) generator).cache = cache
  ∧ (serveImage digest cache cacheKey format
        (some ('"' :: digest cacheKey ++ "\"".toList)) generator).cacheAccessed = false
  ∧ (serveImage digest cache cacheKey format
        (some ('"' :: digest cacheKey ++ "\"".toList)) generator).generatorCalled = false := by
  simp [serveImage]

/-- C8: both the raster path (`drawMultiLineText`) and the SVG path place the
`i`-th of `N` lines at `center − blockHeight/2 + fontSize/2 + i·pitch`, with
pitch `fontSize × 1.5` and block height `fontSize + (N−1)·pitch`. -/
theorem c8_vertical_centering (lines : List Str) (h fontSize : ℚ) (i : Nat) :
    drawMultiLineTextY lines h fontSize i
        = h / 2 - (fontSize + ((lines.length : ℚ) - 1) * (fontSize * 1.5)) / 2
          + fontSize / 2 + (i : ℚ) * (fontSize * 1.5)
  ∧ svgLineY lines.length h fontSize i
        = h / 2 - (fontSize + ((lines.length : ℚ) - 1) * (fontSize * 1.5)) / 2
          + fontSize / 2 + (i : ℚ) * (fontSize * 1.5)
  ∧ drawMultiLineTextY lines h fontSize i = svgLineY lines.length h fontSize i := by
  refine ⟨?_, ?_, ?_⟩ <;> simp only [drawMultiLineTextY, svgLineY] <;> ring

/-- C3 counterexample: at the unrecognized format `bmp`, `encodeImage` returns
the `unsupported raster format` error instead of falling back to WebP-encoded
image bytes. -/
theorem c3_unknown_format_is_error_not_webp :
    encodeImage ⟨1, 1, FillStyle.solid fallbackGray, false, fallbackGray, true, 0,
        TextLayout.single []⟩ ("bmp".toList)
      = Except.error ("unsupported raster format: bmp".toList) := by
  rfl

/-- C3 (amended): for every raster encoding call whose format is not one of
png/jpg/jpeg/gif/webp, `encodeImage` returns the
`unsupported raster format: <format>` error rather than image bytes. -/
theorem c3_unknown_format_errors (img : RasterScene) (format : Str)
    (h1 : format ≠ "png".toList) (h2 : format ≠ "jpg".toList) (h3 : format ≠ "jpeg".toList)
    (h4 : format ≠ "gif".toList) (h5 : format ≠ "webp".toList) :
    encodeImage img format = Except.error ("unsupported raster format: ".toList ++ format) := by
  unfold encodeImage
  rw [if_neg h1, if_neg (not_or.mpr ⟨h2, h3⟩), if_neg h4, if_neg h5]

/-- Witness for C3's amended theorem at the concrete format `tiff`. -/
theorem c3_unknown_format_errors_witness :
    encodeImage ⟨2, 2, FillStyle.solid fallbackGray, false, fallbackGray, false, 1,
        TextLayout.single ("x".toList)⟩ ("tiff".toList)
      = Except.error ("unsupported raster format: ".toList ++ "tiff".toList) :=
  c3_unknown_format_errors _ _ (by decide) (by decide) (by decide) (by decide) (by decide)

/-- C1 (code bug): two resolved placeholder requests that differ only in
whether the text came from a quote/joke substitution have equal cache
fingerprints (the key omits the flag) yet render to different output bytes
(the flag selects single-line versus wrapped drawing and a different font
size), refuting "equal fingerprints imply equal output bytes". -/
theorem c1_fingerprint_omits_quote_flag :
    placeholderFingerprint
        ⟨400, 400, "cccccc".toList, "000000".toList,
          "The quick brown fox jumps over the lazy dog".toList, false, "png".toList⟩
      = placeholderFingerprint
        ⟨400, 400, "cccccc".toList, "000000".toList,
          "The quick brown fox jumps over the lazy dog".toList, true, "png".toList⟩
  ∧ renderPlaceholder (fun _ _ _ => 0)
        ⟨400, 400, "cccccc".toList, "000000".toList,
          "The quick brown fox jumps over the lazy dog".toList, false, "png".toList⟩
      ≠ renderPlaceholder (fun _ _ _ => 0)
        ⟨400, 400, "cccccc".toList, "000000".toList,
          "The quick brown fox jumps over the lazy dog".toList, true, "png".toList⟩ := by
  constructor
  · rfl
  · intro h
    have hfmt : ¬(("png".toList : Str) = "svg".toList) := by decide
    simp [renderPlaceholder, DrawPlaceholderImage, drawRasterImageWithWrapping,
      encodeImage, Except.map, hfmt] at h

/-- Helper: `GetContrastColor` returns black exactly when the claim-side
luminance exceeds the 0.5 threshold, and white otherwise. -/
theorem getContrastColor_spec (bgHex : Str) :
    (GetContrastColor bgHex = "000000".toList ↔ specLuminance bgHex > 0.5)
  ∧ (GetContrastColor bgHex = "ffffff".toList ↔ ¬specLuminance bgHex > 0.5) := by
  have hbw : ¬(("000000".toList : Str) = "ffffff".toList) := by decide
  have hwb : ¬(("ffffff".toList : Str) = "000000".toList) := by decide
  simp only [GetContrastColor, specLuminance]
  split_ifs with h1 h2 h3 <;> simp_all

/-- C4: `GetContrastColor` returns `"000000"` iff the relative luminance
`0.2126·R + 0.7152·G + 0.0722·B` of the 0–1 normalized parsed background
color (channel-wise averaged over the two stops for a two-stop gradient)
exceeds 0.5, and `"ffffff"` otherwise; in particular on `"ffffff"`,
`"000000"` and the gradient `"ffffff,cccccc"`. -/
theorem c4_contrast_luminance_threshold :
    GetContrastColor ("ffffff".toList) = "000000".toList
  ∧ GetContrastColor ("000000".toList) = "ffffff".toList
  ∧ GetContrastColor ("ffffff,cccccc".toList) = "000000".toList
  ∧ ∀ bgHex : Str,
      (GetContrastColor bgHex = "000000".toList ↔ specLuminance bgHex > 0.5)
    ∧ (GetContrastColor bgHex = "ffffff".toList ↔ ¬specLuminance bgHex > 0.5) := by
  refine ⟨?_, ?_, ?_, getContrastColor_spec⟩
  · refine (getContrastColor_spec _).1.mpr ?_
    have h1 : parseGradientColors ['f', 'f', 'f', 'f', 'f', 'f'] = ([], []) := by decide
    have h2 : ParseHexColor ['f', 'f', 'f', 'f', 'f', 'f'] = ⟨255, 255, 255⟩ := by decide
    simp [specLuminance, h1, h2]
    norm_num
  · refine (getContrastColor_spec _).2.mpr ?_
    have h1 : parseGradientColors ['0', '0', '0', '0', '0', '0'] = ([], []) := by decide
    have h2 : ParseHexColor ['0', '0', '0', '0', '0', '0'] = ⟨0, 0, 0⟩ := by decide
    simp [specLuminance, h1, h2]
    norm_num
  · refine (getContrastColor_spec _).1.mpr ?_
    have h1 : parseGradientColors
        ['f', 'f', 'f', 'f', 'f', 'f', ',', 'c', 'c', 'c', 'c', 'c', 'c']
        = (['f', 'f', 'f', 'f', 'f', 'f'], ['c', 'c', 'c', 'c', 'c', 'c']) := by decide
    have h2 : ParseHexColor ['f', 'f', 'f', 'f', 'f', 'f'] = ⟨255, 255, 255⟩ := by decide
    have h3 : ParseHexColor ['c', 'c', 'c', 'c', 'c', 'c'] = ⟨204, 204, 204⟩ := by decide
    simp [specLuminance, h1, h2, h3]
    norm_num

/-- Helper: the Go `if a < b { a } else { b }` minimum idiom. -/
theorem ite_lt_left_min (a b : ℚ) : (if a < b then a else b) = min a b := by
  rcases lt_or_ge a b with hab | hab
  · rw [if_pos hab, min_eq_left hab.le]
  · rw [if_neg (not_lt.mpr hab), min_eq_right hab]

/-- Helper: the Go `if x < c { c } else { x }` lower-clamp idiom. -/
theorem ite_lt_cap_max (x c : ℚ) : (if x < c then c else x) = max x c := by
  rcases lt_or_ge x c with hxc | hxc
  · rw [if_pos hxc, max_eq_right hxc.le]
  · rw [if_neg (not_lt.mpr hxc), max_eq_left hxc]

/-- Helper: the Go `if x > c { c } else { x }` upper-clamp idiom. -/
theorem ite_gt_cap_min (x c : ℚ) : (if x > c then c else x) = min x c := by
  rcases lt_or_ge c x with hcx | hcx
  · rw [if_pos hcx, min_eq_right hcx.le]
  · rw [if_neg (not_lt.mpr hcx), min_eq_left hcx]

/-- C7: the font-size policy.  Non-quote text of at most 2 characters gets
50% of the smaller dimension; longer non-quote text gets 15% of the smaller
dimension floored at 12; quote/joke text gets 8% of the height, dropping to
6% above 100 characters and 5% above 200, clamped to the configured
`[MinFontSize, MaxFontSize] = [16, 48]` band. -/
theorem c7_font_size_policy (w h : Nat) (text : Str) :
    MinFontSize = 16 ∧ MaxFontSize = 48
  ∧ (text.length ≤ 2 →
      placeholderFontSize w h text false = min (w : ℚ) (h : ℚ) * 0.5)
  ∧ (2 < text.length →
      placeholderFontSize w h text false = max (min (w : ℚ) (h : ℚ) * 0.15) 12)
  ∧ placeholderFontSize w h text true
      = min 48 (max 16 ((h : ℚ) *
          (if 200 < text.length then 0.05
           else if 100 < text.length then 0.06 else 0.08))) := by
  refine ⟨rfl, rfl, ?_, ?_, ?_⟩
  · intro hlen
    simp only [placeholderFontSize, MinTextLengthForWrapping, MinTextLengthForSmallFont,
      Bool.false_eq_true, if_false]
    rw [if_neg (by omega), ite_lt_left_min, min_comm]
  · intro hlen
    simp only [placeholderFontSize, MinTextLengthForWrapping, MinTextLengthForSmallFont,
      Bool.false_eq_true, if_false]
    rw [if_pos (by omega), ite_lt_left_min, ite_lt_cap_max, min_comm]
  · simp only [placeholderFontSize, MinFontSize, MaxFontSize, if_true]
    rw [ite_lt_cap_max, ite_gt_cap_min, min_comm, max_comm]
    congr 2
    split_ifs <;> ring

/-- Witness for C7 at concrete sizes and texts. -/
theorem c7_font_size_policy_witness :
    placeholderFontSize 128 128 ("Hi".toList) false = 64
  ∧ placeholderFontSize 128 128 ("abc".toList) false = 19.2
  ∧ placeholderFontSize 300 500 ("q".toList) true = 40 := by
  refine ⟨?_, ?_, ?_⟩
  · rw [(c7_font_size_policy 128 128 _).2.2.1 (by decide)]
    norm_num
  · rw [(c7_font_size_policy 128 128 _).2.2.2.1 (by decide)]
    norm_num
  · rw [(c7_font_size_policy 300 500 _).2.2.2.2]
    norm_num

/-- Helper: `trimLeadingHash` leaves a string alone when its head is not
`#`. -/
theorem trimLeadingHash_cons_ne {c : Char} (s : Str) (hc : c ≠ '#') :
    trimLeadingHash (c :: s) = c :: s := by
  unfold trimLeadingHash
  split
  · next rest heq =>
    cases heq
    exact absurd rfl hc
  · rfl

/-- Helper: `expand3` leaves non-3-character strings alone. -/
theorem expand3_length_ne3 {t : Str} (h : t.length ≠ 3) : expand3 t = t := by
  unfold expand3
  split
  · simp at h
  · rfl

/-- Helper: `hexDecode` fails on anything but 6 characters. -/
theorem hexDecode_length_ne6 {t : Str} (h : t.length ≠ 6) : hexDecode t = none := by
  unfold hexDecode
  split
  · simp at h
  · rfl

/-- Helper: a successful `hexDecode` input has 6 characters. -/
theorem hexDecode_some_length {t : Str} {v : Nat × Nat × Nat}
    (h : hexDecode t = some v) : t.length = 6 := by
  by_contra hh
  rw [hexDecode_length_ne6 hh] at h
  cases h

/-- C9: `ParseHexColor` accepts 3- or 6-hex-digit input with or without a
leading `#`; a 3-digit input is expanded digit-wise (`"f0e"` parses as
`"ff00ee"`); a valid 6-digit input yields the corresponding RGB color; any
other length, or non-hex characters, yields the fallback gray (200,200,200). -/
theorem c9_parse_hex_color :
    ParseHexColor ("f0e".toList) = ⟨255, 0, 238⟩
  ∧ ParseHexColor ("f0e".toList) = ParseHexColor ("ff00ee".toList)
  ∧ (∀ a b c : Char, ParseHexColor [a, b, c] = ParseHexColor [a, a, b, b, c, c])
  ∧ (∀ s : Str, s.head? ≠ some '#' → ParseHexColor ('#' :: s) = ParseHexColor s)
  ∧ (∀ (s : Str) (r g b : Nat), hexDecode (trimLeadingHash s) = some (r, g, b) →
      ParseHexColor s = ⟨r, g, b⟩)
  ∧ (∀ s : Str, (trimLeadingHash s).length ≠ 3 → (trimLeadingHash s).length ≠ 6 →
      ParseHexColor s = fallbackGray)
  ∧ (∀ s : Str, (trimLeadingHash s).length = 6 → hexDecode (trimLeadingHash s) = none →
      ParseHexColor s = fallbackGray) := by
  refine ⟨by decide, by decide, ?_, ?_, ?_, ?_, ?_⟩
  · intro a b c
    by_cases ha : a = '#'
    · subst ha; rfl
    · simp [ParseHexColor, trimLeadingHash_cons_ne _ ha, expand3]
  · intro s hs
    cases s with
    | nil => rfl
    | cons c s' =>
      have hc : c ≠ '#' := by simpa using hs
      have ht : trimLeadingHash ('#' :: c :: s') = c :: s' := rfl
      simp only [ParseHexColor, ht, trimLeadingHash_cons_ne _ hc]
  · intro s r g b hdec
    have hlen := hexDecode_some_length hdec
    have hne3 : (trimLeadingHash s).length ≠ 3 := by omega
    simp [ParseHexColor, expand3_length_ne3 hne3, hlen, hdec]
  · intro s h3 h6
    simp [ParseHexColor, expand3_length_ne3 h3, h6]
  · intro s h6 hdec
    have hne3 : (trimLeadingHash s).length ≠ 3 := by omega
    simp [ParseHexColor, expand3_length_ne3 hne3, h6, hdec]

/-- Witness for C9 at concrete inputs. -/
theorem c9_parse_hex_color_witness :
    ParseHexColor ("#abc".toList) = ParseHexColor ("abc".toList)
  ∧ ParseHexColor ("ff00ee".toList) = ⟨255, 0, 238⟩
  ∧ ParseHexColor ("abcd".toList) = fallbackGray
  ∧ ParseHexColor ("gg0011".toList) = fallbackGray := by
  refine ⟨?_, ?_, ?_, ?_⟩
  · exact c9_parse_hex_color.2.2.2.1 ("abc".toList) (by decide)
  · exact c9_parse_hex_color.2.2.2.2.1 ("ff00ee".toList) 255 0 238 (by decide)
  · exact c9_parse_hex_color.2.2.2.2.2.1 ("abcd".toList) (by decide) (by decide)
  · exact c9_parse_hex_color.2.2.2.2.2.2 ("gg0011".toList) (by decide) (by decide)

/-- C5: with `rpm=60, burst=1`, two immediate `admit` calls for the same
identity yield `(true, false)`; after one second (one refilled token) a third
call yields `true`; and an `admit` call for a different identity is decided
exactly as on a fresh registry — in general the decision for an identity
depends only on that identity's registry entry and the configured rpm/burst. -/
theorem c5_token_bucket_scenario (t : ℚ) (ip ip2 : Str) (hne : ip ≠ ip2) :
    ((newRateLimiter 60 1).admitReq ip t).1 = true
  ∧ (((newRateLimiter 60 1).admitReq ip t).2.admitReq ip t).1 = false
  ∧ ((((newRateLimiter 60 1).admitReq ip t).2.admitReq ip t).2.admitReq ip (t + 1)).1 = true
  ∧ ((((newRateLimiter 60 1).admitReq ip t).2.admitReq ip t).2.admitReq ip2 t).1
      = ((newRateLimiter 60 1).admitReq ip2 t).1
  ∧ ((((newRateLimiter 60 1).admitReq ip t).2.admitReq ip t).2.admitReq ip2 t).1 = true
  ∧ (∀ (s s2 : RateLimiterState) (idp : Str) (now : ℚ),
      s.limiters.lookup idp = s2.limiters.lookup idp → s.rpm = s2.rpm →
      s.burst = s2.burst → (s.admitReq idp now).1 = (s2.admitReq idp now).1) := by
  have hbeq : (ip == ip) = true := by simp
  have hbne : (ip2 == ip) = false := beq_eq_false_iff_ne.mpr (Ne.symm hne)
  have e1 : (newRateLimiter 60 1).admitReq ip t
      = (true, ⟨[(ip, ⟨⟨1, 1, 0, t⟩, t⟩)], 60, 1⟩) := by
    norm_num [RateLimiterState.admitReq, RateLimiterState.getLimiter, RateLimiterState.setBucket,
      Bucket.allow, Bucket.advance, newRateLimiter, List.lookup, hbeq]
  have e2 : (⟨[(ip, ⟨⟨1, 1, 0, t⟩, t⟩)], 60, 1⟩ : RateLimiterState).admitReq ip t
      = (false, ⟨[(ip, ⟨⟨1, 1, 0, t⟩, t⟩)], 60, 1⟩) := by
    norm_num [RateLimiterState.admitReq, RateLimiterState.getLimiter, RateLimiterState.setBucket,
      Bucket.allow, Bucket.advance, List.lookup, hbeq]
  have e3 : ((⟨[(ip, ⟨⟨1, 1, 0, t⟩, t⟩)], 60, 1⟩ : RateLimiterState).admitReq ip (t + 1)).1
      = true := by
    norm_num [RateLimiterState.admitReq, RateLimiterState.getLimiter, RateLimiterState.setBucket,
      Bucket.allow, Bucket.advance, List.lookup, hbeq]
  have e4 : ((⟨[(ip, ⟨⟨1, 1, 0, t⟩, t⟩)], 60, 1⟩ : RateLimiterState).admitReq ip2 t).1
      = true := by
    norm_num [RateLimiterState.admitReq, RateLimiterState.getLimiter, RateLimiterState.setBucket,
      Bucket.allow, Bucket.advance, List.lookup, hbne]
  have e5 : ((newRateLimiter 60 1).admitReq ip2 t).1 = true := by
    norm_num [RateLimiterState.admitReq, RateLimiterState.getLimiter, RateLimiterState.setBucket,
      Bucket.allow, Bucket.advance, newRateLimiter, List.lookup]
  refine ⟨by rw [e1], by rw [e1]; rw [e2], by rw [e1]; rw [e2]; exact e3,
    by rw [e1]; rw [e2]; rw [e4, e5], by rw [e1]; rw [e2]; exact e4, ?_⟩
  intro s s2 idp now hl hr hb
  simp only [RateLimiterState.admitReq, RateLimiterState.getLimiter]
  rcases hcase : s2.limiters.lookup idp with _ | entry <;>
    simp [hl, hcase, hr, hb]

/-- Witness for C5 at time 0 with identities `a` and `b`. -/
theorem c5_token_bucket_scenario_witness :
    ((newRateLimiter 60 1).admitReq ['a'] 0).1 = true
  ∧ (((newRateLimiter 60 1).admitReq ['a'] 0).2.admitReq ['a'] 0).1 = false
  ∧ ((((newRateLimiter 60 1).admitReq ['a'] 0).2.admitReq ['a'] 0).2.admitReq ['a'] (0 + 1)).1 = true
  ∧ ((((newRateLimiter 60 1).admitReq ['a'] 0).2.admitReq ['a'] 0).2.admitReq ['b'] 0).1 = true := by
  have h := c5_token_bucket_scenario 0 ['a'] ['b'] (by decide)
  exact ⟨h.1, h.2.1, h.2.2.1, h.2.2.2.2.1⟩

/-- Helper: one unfolding step of `fields`. -/
theorem fields_cons (c : Char) (s : Str) :
    fields (c :: s)
      = if goIsSpace c then fields s
        else (c :: s.takeWhile (fun x => !goIsSpace x))
          :: fields (s.dropWhile (fun x => !goIsSpace x)) := by
  rw [fields]

/-- Helper: `fields` of the empty string. -/
theorem fields_nil : fields [] = [] := by
  rw [fields]

/-- Helper: an all-whitespace string has no fields. -/
theorem fields_all_space : ∀ {s : Str}, (∀ c ∈ s, goIsSpace c = true) → fields s = [] := by
  intro s
  induction s with
  | nil => intro _; exact fields_nil
  | cons c s ih =>
    intro h
    rw [fields_cons, if_pos (h c (by simp))]
    exact ih fun x hx => h x (by simp [hx])

/-- Helper: a non-empty string without whitespace is a single field. -/
theorem fields_no_space {s : Str} (hs : s ≠ []) (h : ∀ c ∈ s, goIsSpace c = false) :
    fields s = [s] := by
  obtain ⟨c, s', rfl⟩ := List.exists_cons_of_ne_nil hs
  have hc : ¬goIsSpace c = true := by simp [h c (by simp)]
  have htw : s'.takeWhile (fun x => !goIsSpace x) = s' :=
    List.takeWhile_eq_self_iff.mpr fun x hx => by simp [h x (by simp [hx])]
  have hdw : s'.dropWhile (fun x => !goIsSpace x) = [] :=
    List.dropWhile_eq_nil_iff.mpr fun x hx => by simp [h x (by simp [hx])]
  rw [fields_cons, if_neg hc, htw, hdw, fields_nil]

/-- Helper: every field is non-empty and whitespace-free. -/
theorem mem_fields_spec {s w : Str} (hw : w ∈ fields s) :
    w ≠ [] ∧ ∀ c ∈ w, goIsSpace c = false := by
  suffices H : ∀ (n : Nat) (s w : Str), s.length ≤ n → w ∈ fields s →
      w ≠ [] ∧ ∀ c ∈ w, goIsSpace c = false from H s.length s w le_rfl hw
  intro n
  induction n with
  | zero =>
    intro s w hl hw
    have hs : s = [] := List.eq_nil_of_length_eq_zero (Nat.le_zero.mp hl)
    subst hs
    rw [fields_nil] at hw
    cases hw
  | succ n ih =>
    intro s w hl hw
    cases s with
    | nil =>
      rw [fields_nil] at hw
      cases hw
    | cons c s' =>
      rw [fields_cons] at hw
      by_cases hc : goIsSpace c = true
      · rw [if_pos hc] at hw
        exact ih s' w (by simp only [List.length_cons] at hl; omega) hw
      · rw [if_neg hc] at hw
        rcases List.mem_cons.mp hw with rfl | hw2
        · refine ⟨by simp, ?_⟩
          intro x hx
          rcases List.mem_cons.mp hx with rfl | hx2
          · simpa using hc
          · simpa using List.mem_takeWhile_imp hx2
        · refine ih _ w ?_ hw2
          have := (List.dropWhile_sublist (l := s') (fun x => !goIsSpace x)).length_le
          simp only [List.length_cons] at hl
          omega

/-- Helper: `fields` is the identity on its own output elements. -/
theorem fields_idem {s w : Str} (hw : w ∈ fields s) : fields w = [w] :=
  (mem_fields_spec hw).elim fun h1 h2 => fields_no_space h1 h2

/-- Helper: `fields` splits at an inserted whitespace separator. -/
theorem fields_append_space (a b : Str) : fields (a ++ ' ' :: b) = fields a ++ fields b := by
  suffices H : ∀ (n : Nat) (a b : Str), a.length ≤ n →
      fields (a ++ ' ' :: b) = fields a ++ fields b from H a.length a b le_rfl
  intro n
  induction n with
  | zero =>
    intro a b hl
    have ha : a = [] := List.eq_nil_of_length_eq_zero (Nat.le_zero.mp hl)
    subst ha
    rw [List.nil_append, fields_nil, List.nil_append, fields_cons, if_pos (by decide)]
  | succ n ih =>
    intro a b hl
    cases a with
    | nil =>
      rw [List.nil_append, fields_nil, List.nil_append, fields_cons, if_pos (by decide)]
    | cons c a' =>
      rw [List.cons_append, fields_cons, fields_cons]
      by_cases hc : goIsSpace c = true
      · rw [if_pos hc, if_pos hc, ih a' b (by simp only [List.length_cons] at hl; omega)]
      · rw [if_neg hc, if_neg hc]
        by_cases hall : ∀ x ∈ a', (fun x => !goIsSpace x) x = true
        · have htw : a'.takeWhile (fun x => !goIsSpace x) = a' :=
            List.takeWhile_eq_self_iff.mpr hall
          have hdw : a'.dropWhile (fun x => !goIsSpace x) = [] :=
            List.dropWhile_eq_nil_iff.mpr hall
          have htw2 : (a' ++ ' ' :: b).takeWhile (fun x => !goIsSpace x) = a' := by
            rw [List.takeWhile_append, if_pos (by rw [htw]),
              List.takeWhile_cons_of_neg (by decide), List.append_nil]
          have hdw2 : (a' ++ ' ' :: b).dropWhile (fun x => !goIsSpace x) = ' ' :: b := by
            rw [List.dropWhile_append, if_pos (by rw [hdw]; rfl)]
            exact List.dropWhile_cons_of_neg (by decide)
          rw [htw2, hdw2, htw, hdw, fields_nil, fields_cons, if_pos (by decide)]
          simp
        · have hne : a'.takeWhile (fun x => !goIsSpace x) ≠ a' := fun hcontra =>
            hall (List.takeWhile_eq_self_iff.mp hcontra)
          have hlen : (a'.takeWhile (fun x => !goIsSpace x)).length ≠ a'.length := fun hcl =>
            hne ((List.takeWhile_prefix _).eq_of_length hcl)
          have hdwne : (a'.dropWhile (fun x => !goIsSpace x)).isEmpty = false := by
            rcases hdd : a'.dropWhile (fun x => !goIsSpace x) with _ | ⟨d, ds⟩
            · exact absurd (List.dropWhile_eq_nil_iff.mp hdd) hall
            · rfl
          have htw2 : (a' ++ ' ' :: b).takeWhile (fun x => !goIsSpace x)
              = a'.takeWhile (fun x => !goIsSpace x) := by
            rw [List.takeWhile_append, if_neg hlen]
          have hdw2 : (a' ++ ' ' :: b).dropWhile (fun x => !goIsSpace x)
              = a'.dropWhile (fun x => !goIsSpace x) ++ ' ' :: b := by
            rw [List.dropWhile_append, if_neg (by simp [hdwne])]
          have hrec := ih (a'.dropWhile (fun x => !goIsSpace x)) b (by
            have := (List.dropWhile_sublist (l := a') (fun x => !goIsSpace x)).length_le
            simp only [List.length_cons] at hl
            omega)
          rw [htw2, hdw2, hrec]
          simp

/-- Helper: `fields` of space-joined lines is the concatenation of each
line's fields. -/
theorem fields_joinSpace (ls : List Str) :
    fields (joinSpace ls) = (ls.map fields).flatten := by
  induction ls with
  | nil => simp [joinSpace, fields_nil]
  | cons l ls ih =>
    cases ls with
    | nil => simp [joinSpace]
    | cons l2 ls2 =>
      rw [show joinSpace (l :: l2 :: ls2) = l ++ ' ' :: joinSpace (l2 :: ls2) from rfl,
        fields_append_space, ih]
      simp

/-- Helper: the greedy loop neither drops, duplicates, splits nor reorders
words: the fields of its committed lines plus the trailing line equal the
fields of the accumulated lines plus the current line's fields plus the
remaining words. -/
theorem wrapLoop_fields (fits : Str → Bool) :
    ∀ (ws : List Str) (cur : Str) (lines : List Str), (∀ w ∈ ws, fields w = [w]) →
      ((wrapLoop fits ws cur lines).1.map fields).flatten
          ++ fields (wrapLoop fits ws cur lines).2
        = (lines.map fields).flatten ++ (fields cur ++ ws) := by
  intro ws
  induction ws with
  | nil =>
    intro cur lines _
    simp [wrapLoop]
  | cons w ws ih =>
    intro cur lines h
    have hw : fields w = [w] := h w (by simp)
    have hws : ∀ x ∈ ws, fields x = [x] := fun x hx => h x (by simp [hx])
    rcases eq_or_ne cur [] with rfl | hcur
    · cases hf : fits w with
      | true =>
        simp only [wrapLoop, ne_eq, not_true_eq_false, if_false, hf, if_true,
          reduceIte]
        rw [ih w lines hws]
        simp [hw, fields_nil]
      | false =>
        simp only [wrapLoop, ne_eq, not_true_eq_false, if_false, hf,
          Bool.false_eq_true]
        rw [ih [] (lines ++ [w]) hws]
        simp [hw, fields_nil]
    · cases hf : fits (cur ++ ' ' :: w) with
      | true =>
        simp only [wrapLoop, ne_eq, hcur, not_false_eq_true, if_true, hf,
          reduceIte]
        rw [ih (cur ++ ' ' :: w) lines hws, fields_append_space]
        simp [hw]
      | false =>
        simp only [wrapLoop, ne_eq, hcur, not_false_eq_true, if_true, hf,
          Bool.false_eq_true, if_false]
        rw [ih w (lines ++ [cur]) hws]
        simp [hw]

/-- Helper: `wrapFinish` preserves the total field sequence of the
accumulator. -/
theorem wrapFinish_fields {text : Str} {acc : List Str × Str}
    (h : (acc.1.map fields).flatten ++ fields acc.2 = fields text) :
    fields (joinSpace (wrapFinish text acc)) = fields text := by
  rcases eq_or_ne acc.2 [] with h2 | h2
  · simp only [wrapFinish, h2, ne_eq, not_true_eq_false, if_false]
    rcases eq_or_ne acc.1 [] with h1 | h1
    · rw [if_pos h1]
      simp [joinSpace]
    · rw [if_neg h1, fields_joinSpace, ← h]
      simp [h2, fields_nil]
  · simp [wrapFinish, h2]
    rw [fields_joinSpace, ← h]
    simp

/-- Helper: `wrapFinish` always yields at least one line. -/
theorem wrapFinish_length (text : Str) (acc : List Str × Str) :
    1 ≤ (wrapFinish text acc).length := by
  rcases eq_or_ne acc.2 [] with h2 | h2
  · simp only [wrapFinish, h2, ne_eq, not_true_eq_false, if_false]
    rcases eq_or_ne acc.1 [] with h1 | h1
    · rw [if_pos h1]; simp
    · rw [if_neg h1]
      exact List.length_pos.mpr h1
  · simp [wrapFinish, h2]

/-- Helper: wrapping a single word yields that word as the only line, no
matter whether it fits. -/
theorem wrapLoop_single (fits : Str → Bool) (w : Str) :
    wrapFinish w (wrapLoop fits [w] [] []) = [w] := by
  rcases eq_or_ne w [] with rfl | hw
  · cases hf : fits [] <;> simp [wrapLoop, wrapFinish, hf]
  · cases hf : fits w <;> simp [wrapLoop, wrapFinish, hf, hw]

/-- C10: both wrappers preserve the word sequence — splitting the
whitespace-joined output lines on whitespace yields exactly the input's
word sequence, for every measurer, width and font size. -/
theorem c10_wrap_preserves_words (measure : Str → ℚ) (text : Str)
    (imageWidth fontSize : ℚ) :
    fields (joinSpace (wrapText measure text imageWidth fontSize)) = fields text
  ∧ fields (joinSpace (wrapTextForSVG text imageWidth fontSize)) = fields text := by
  constructor
  · simp only [wrapText]
    rcases eq_or_ne (fields text) [] with hft | hft
    · rw [if_pos hft]
      simp [joinSpace]
    · rw [if_neg hft]
      apply wrapFinish_fields
      simpa [fields_nil] using
        wrapLoop_fields _ (fields text) [] [] fun w hw => fields_idem hw
  · simp only [wrapTextForSVG]
    rcases eq_or_ne (fields text) [] with hft | hft
    · rw [if_pos hft]
      simp [joinSpace]
    · rw [if_neg hft]
      apply wrapFinish_fields
      simpa [fields_nil] using
        wrapLoop_fields _ (fields text) [] [] fun w hw => fields_idem hw

/-- C6: for both wrappers, at every width and font size: an empty or
whitespace-only input yields exactly one line equal to the input; an input
without whitespace yields exactly one line regardless of width; and the
output always has at least one line. -/
theorem c6_wrap_degenerate_inputs (measure : Str → ℚ) (imageWidth fontSize : ℚ) :
    (∀ s : Str, (∀ c ∈ s, goIsSpace c = true) →
        wrapText measure s imageWidth fontSize = [s]
      ∧ wrapTextForSVG s imageWidth fontSize = [s])
  ∧ (∀ s : Str, s ≠ [] → (∀ c ∈ s, goIsSpace c = false) →
        wrapText measure s imageWidth fontSize = [s]
      ∧ wrapTextForSVG s imageWidth fontSize = [s])
  ∧ ∀ s : Str, 1 ≤ (wrapText measure s imageWidth fontSize).length
      ∧ 1 ≤ (wrapTextForSVG s imageWidth fontSize).length := by
  refine ⟨fun s hs => ?_, fun s hs1 hs2 => ?_, fun s => ?_⟩
  · have hf : fields s = [] := fields_all_space hs
    constructor <;> simp only [wrapText, wrapTextForSVG] <;> rw [if_pos hf]
  · have hf : fields s = [s] := fields_no_space hs1 hs2
    constructor <;> simp only [wrapText, wrapTextForSVG] <;>
      rw [hf, if_neg (by simp), wrapLoop_single]
  · constructor <;> simp only [wrapText, wrapTextForSVG] <;>
      · rcases eq_or_ne (fields s) [] with hf | hf
        · rw [if_pos hf]; simp
        · rw [if_neg hf]
          exact wrapFinish_length _ _

/-- Witness for C6 at concrete inputs. -/
theorem c6_wrap_degenerate_inputs_witness :
    wrapText (fun _ => 0) ("   ".toList) 100 10 = ["   ".toList]
  ∧ wrapTextForSVG ("hello".toList) 1 1 = ["hello".toList]
  ∧ 1 ≤ (wrapText (fun _ => 0) ("a b".toList) 100 10).length := by
  have h := c6_wrap_degenerate_inputs (fun _ => 0) 100 10
  have h2 := c6_wrap_degenerate_inputs (fun _ => 0) 1 1
  exact ⟨(h.1 _ (by decide)).1, (h2.2.1 _ (by decide) (by decide)).2, (h.2.2 _).1⟩

end Grout
